import Mathlib

/-
  Verification development for the dental-clinic assessment app (src/app.py).

  The Python source is shallowly embedded: spreadsheet cell values become the
  inductive type `Val` (an integer cell or a string cell), a record returned by
  `get_all_records()` becomes an association list `Record`, the worksheet grid
  becomes `Sheet`, and the retry wrappers are parameterised by a failure
  schedule `fails : Nat → Bool` describing which remote attempts raise.
-/

namespace DentalApp

/-- A spreadsheet cell value as the Python code sees it: an int or a string. -/
inductive Val where
  | vInt : Int → Val
  | vStr : String → Val
deriving DecidableEq, Repr

/-- A record as returned by `worksheet.get_all_records()`: a dict, embedded as
an association list from column name to cell value (keys unique in a dict). -/
abbrev Record := List (String × Val)

/-- Model of Python's `str.strip()`: drop leading and trailing whitespace. -/
def pyStrip (s : String) : String :=
  ⟨((s.data.dropWhile Char.isWhitespace).reverse.dropWhile Char.isWhitespace).reverse⟩

/-- Model of Python's `dict.get(key, default)` on a `Record`. -/
def rget (r : Record) (k : String) (d : Val) : Val :=
  match r.find? (fun p => p.1 == k) with
  | some p => p.2
  | none => d

/-- Model of Python's `str(val)` for the values a cell can hold. -/
def valToString : Val → String
  | .vInt n => toString n
  | .vStr s => s

/-- Model of the source's `str(val) == "N/A"` test. -/
def isNAv (v : Val) : Bool := valToString v == "N/A"

/-- Numeric value of a string of decimal digits. -/
def digitsToNat (l : List Char) : Nat :=
  l.foldl (fun a c => a * 10 + (c.toNat - 48)) 0

/-- Model of Python's `int(float(s))` on a string cell, returning `none` when
`float(s)` would raise.  It covers the decimal literals relevant to the app
(optional sign, digits, optional fractional part) and truncates toward zero;
other strings (such as `"N/A"` or free text) are non-numeric and yield
`none`. -/
def pyFloatInt (s : String) : Option Int :=
  let cs := (pyStrip s).data
  let sgn : Int := match cs with | '-' :: _ => -1 | _ => 1
  let body : List Char := match cs with
    | '-' :: r => r
    | '+' :: r => r
    | _ => cs
  let ip := body.takeWhile Char.isDigit
  let rest := body.drop ip.length
  match rest with
  | [] => if ip.isEmpty then none else some (sgn * (digitsToNat ip : Int))
  | '.' :: fr =>
      if fr.all Char.isDigit && !(ip.isEmpty && fr.isEmpty) then
        some (sgn * (digitsToNat ip : Int))
      else none
  | _ => none

/-- Model of the source's `int(float(val))`, `none` when it would raise. -/
def parseScore : Val → Option Int
  | .vInt n => some n
  | .vStr s => pyFloatInt s

/-- The `考核項目` names of the static catalog `get_assessment_items()`. -/
def item_names : List String :=
  ["跟診技能", "櫃台技能", "跟診執行", "櫃台溝通", "勤務配合(職能)", "勤務配合(配合)",
   "人際協作(人際)", "人際協作(協作)", "危機處理", "基礎職能", "進階職能", "應變能力"]

/-- `SCORE_OPTIONS_FULL` membership: an integer 0–10 or the string `"N/A"`. -/
def allowedScore : Val → Bool
  | .vInt n => decide (0 ≤ n ∧ n ≤ 10)
  | .vStr s => s == "N/A"

/-- Embedding of `safe_sum_scores_from_dict`: fold over the dict's values,
skipping `"N/A"` cells, otherwise adding `int(float(val))` to the total and 10
to the max (neither is added when the numeric conversion raises). -/
def safe_sum_scores_from_dict (scores : List (String × Val)) : Int × Int :=
  scores.foldl
    (fun acc p =>
      if isNAv p.2 then acc
      else
        match parseScore p.2 with
        | some n => (acc.1 + n, acc.2 + 10)
        | none => acc)
    (0, 0)

/-- One loop iteration of `calculate_dynamic_score`: skip the item when the
reference cell reads `"N/A"`; otherwise add 10 to the max, then add the stage
cell's numeric value to the total unless it reads `"N/A"` or fails to parse. -/
def cds_step (record : Record) (suffix ref_suffix : String)
    (acc : Int × Int) (item : String) : Int × Int :=
  let v := rget record (item ++ suffix) (.vInt 0)
  let rv := rget record (item ++ ref_suffix) (.vInt 0)
  if isNAv rv then acc
  else
    let m := acc.2 + 10
    if isNAv v then (acc.1, m)
    else
      match parseScore v with
      | some n => (acc.1 + n, m)
      | none => (acc.1, m)

/-- `calculate_dynamic_score` generalised over the item list it loops on. -/
def cds_over (items : List String) (record : Record) (suffix ref_suffix : String) :
    Int × Int :=
  items.foldl (cds_step record suffix ref_suffix) (0, 0)

/-- Embedding of `calculate_dynamic_score(record, suffix, ref_suffix)`. -/
def calculate_dynamic_score (record : Record) (suffix : String)
    (ref_suffix : String := "-自評") : Int × Int :=
  cds_over item_names record suffix ref_suffix

/-- Contribution of one stage cell per the spec's `fold` description: `"N/A"`,
missing or non-numeric counts as 0, otherwise the integer truncation. -/
def stage_contrib (v : Val) : Int :=
  if isNAv v then 0 else (parseScore v).getD 0

/-- The spec's description of `fold` with the `self` stage as reference
(spec §4.2), written independently of the source: items whose self cell is
`"N/A"` are skipped entirely, every other item adds 10 to the max and its
stage cell's value (0 when `"N/A"`, missing or non-numeric) to the total. -/
def fold_spec (record : Record) (suffix : String) : Int × Int :=
  let applicable :=
    item_names.filter (fun i => !(isNAv (rget record (i ++ "-自評") (.vInt 0))))
  (applicable.foldl (fun t i => t + stage_contrib (rget record (i ++ suffix) (.vInt 0))) 0,
   10 * (applicable.length : Int))

/-- Componentwise addition on (total, max) pairs. -/
def pairAdd (a b : Int × Int) : Int × Int := (a.1 + b.1, a.2 + b.2)

/-- Contribution of one dict value to `safe_sum_scores_from_dict`. -/
def sum_contrib (v : Val) : Int × Int :=
  if isNAv v then (0, 0)
  else
    match parseScore v with
    | some n => (n, 10)
    | none => (0, 0)

theorem safe_sum_step_eq (acc : Int × Int) (p : String × Val) :
    (if isNAv p.2 then acc
     else
       match parseScore p.2 with
       | some n => (acc.1 + n, acc.2 + 10)
       | none => acc) = pairAdd acc (sum_contrib p.2) := by
  unfold sum_contrib pairAdd
  by_cases h : isNAv p.2
  · simp [h]
  · simp [h]
    cases parseScore p.2 <;> simp

/-- Sum of per-element contributions, the closed form of the fold loops. -/
def sumContribs {α : Type} (f : α → Int × Int) : List α → Int × Int
  | [] => (0, 0)
  | x :: l => pairAdd (f x) (sumContribs f l)

theorem pairAdd_assoc (a b c : Int × Int) :
    pairAdd (pairAdd a b) c = pairAdd a (pairAdd b c) := by
  simp [pairAdd]; constructor <;> ring

theorem pairAdd_zero (a : Int × Int) : pairAdd (0, 0) a = a := by
  simp [pairAdd]

theorem foldl_pairAdd_shift {α : Type} (f : α → Int × Int)
    (step : Int × Int → α → Int × Int)
    (hstep : ∀ acc x, step acc x = pairAdd acc (f x)) :
    ∀ (l : List α) (acc : Int × Int),
      l.foldl step acc = pairAdd acc (sumContribs f l) := by
  intro l
  induction l with
  | nil => intro acc; simp [sumContribs, pairAdd]
  | cons x xs ih =>
      intro acc
      simp only [List.foldl_cons]
      rw [hstep, ih, sumContribs, pairAdd_assoc]

theorem safe_sum_eq_sumContribs (l : List (String × Val)) :
    safe_sum_scores_from_dict l = sumContribs (fun q => sum_contrib q.2) l := by
  unfold safe_sum_scores_from_dict
  rw [foldl_pairAdd_shift (fun q => sum_contrib q.2) _
      (fun acc q => safe_sum_step_eq acc q) l, pairAdd_zero]

theorem safe_sum_cons (p : String × Val) (l : List (String × Val)) :
    safe_sum_scores_from_dict (p :: l) =
      pairAdd (sum_contrib p.2) (safe_sum_scores_from_dict l) := by
  rw [safe_sum_eq_sumContribs, safe_sum_eq_sumContribs, sumContribs]

/-- Contribution of one item to `calculate_dynamic_score`. -/
def cds_contrib (record : Record) (suffix ref_suffix : String) (item : String) :
    Int × Int :=
  if isNAv (rget record (item ++ ref_suffix) (.vInt 0)) then (0, 0)
  else (stage_contrib (rget record (item ++ suffix) (.vInt 0)), 10)

theorem cds_step_eq (record : Record) (suffix ref_suffix : String)
    (acc : Int × Int) (item : String) :
    cds_step record suffix ref_suffix acc item =
      pairAdd acc (cds_contrib record suffix ref_suffix item) := by
  unfold cds_step cds_contrib stage_contrib pairAdd
  by_cases h : isNAv (rget record (item ++ ref_suffix) (.vInt 0))
  · simp [h]
  · simp [h]
    by_cases hv : isNAv (rget record (item ++ suffix) (.vInt 0))
    · simp [hv]
    · simp [hv]
      cases parseScore (rget record (item ++ suffix) (.vInt 0)) <;> simp

theorem cds_over_eq_sumContribs (items : List String) (record : Record)
    (suffix ref_suffix : String) :
    cds_over items record suffix ref_suffix =
      sumContribs (cds_contrib record suffix ref_suffix) items := by
  unfold cds_over
  rw [foldl_pairAdd_shift (cds_contrib record suffix ref_suffix) _
      (cds_step_eq record suffix ref_suffix) items, pairAdd_zero]

theorem foldl_add_shift {α : Type} (g : α → Int) :
    ∀ (l : List α) (a : Int), l.foldl (fun t i => t + g i) a = a + l.foldl (fun t i => t + g i) 0 := by
  intro l
  induction l with
  | nil => intro a; simp
  | cons x xs ih =>
      intro a
      simp only [List.foldl_cons]
      rw [ih (a + g x), ih (0 + g x)]
      ring

theorem sumContribs_cds_fold (record : Record) (suffix : String) :
    ∀ items : List String,
      sumContribs (cds_contrib record suffix "-自評") items =
        ((items.filter (fun i => !(isNAv (rget record (i ++ "-自評") (.vInt 0))))).foldl
            (fun t i => t + stage_contrib (rget record (i ++ suffix) (.vInt 0))) 0,
         10 * ((items.filter
            (fun i => !(isNAv (rget record (i ++ "-自評") (.vInt 0))))).length : Int)) := by
  intro items
  induction items with
  | nil => simp [sumContribs]
  | cons i rest ih =>
      by_cases h : isNAv (rget record (i ++ "-自評") (.vInt 0))
      · simp [sumContribs, cds_contrib, h, List.filter_cons, pairAdd, ih]
      · simp only [sumContribs, cds_contrib, h, if_false, List.filter_cons,
          Bool.not_false, if_true, ih, pairAdd, List.foldl_cons, List.length_cons,
          Bool.false_eq_true]
        rw [foldl_add_shift _ _ (0 + stage_contrib (rget record (i ++ suffix) (.vInt 0)))]
        simp only [Prod.mk.injEq]
        constructor
        · ring
        · push_cast
          ring

/-- C2: with the self stage (`-自評`) as reference, `calculate_dynamic_score`
computes exactly the spec's `fold`: items whose self cell reads `"N/A"` are
skipped entirely; every other item contributes 10 to the max, and its own
cell's integer truncation to the total, where `"N/A"`, missing, or
non-numeric cells contribute 0 to the total while still adding 10 to the
max. -/
theorem C2_calculate_dynamic_score_matches_spec_fold (record : Record) (suffix : String) :
    calculate_dynamic_score record suffix "-自評" = fold_spec record suffix := by
  unfold calculate_dynamic_score fold_spec
  rw [cds_over_eq_sumContribs, sumContribs_cds_fold]

/-- Integer carried by a cell, 0 for a string cell. -/
def int_of : Val → Int
  | .vInt n => n
  | .vStr _ => 0

theorem isNAv_vInt_false (n : Int) (h0 : 0 ≤ n) (h10 : n ≤ 10) :
    isNAv (.vInt n) = false := by
  interval_cases n <;> decide

/-- C10: on a score map whose values all lie in `SCORE_OPTIONS_FULL`
(integers 0–10 or `"N/A"`), `safe_sum_scores_from_dict` returns the sum of
the non-N/A entries as the total, 10 times their count as the max, and the
total is bounded by `0 ≤ total ≤ max`. -/
theorem safe_sum_closed_form (scores : List (String × Val))
    (hall : ∀ p ∈ scores, allowedScore p.2 = true) :
    safe_sum_scores_from_dict scores =
      (((scores.filter (fun p => !(isNAv p.2))).map (fun p => int_of p.2)).sum,
       10 * ((scores.filter (fun p => !(isNAv p.2))).length : Int)) := by
  induction scores with
  | nil => simp [safe_sum_scores_from_dict]
  | cons p l ih =>
      have hp : allowedScore p.2 = true := hall p (List.mem_cons_self p l)
      have hl : ∀ q ∈ l, allowedScore q.2 = true :=
        fun q hq => hall q (List.mem_cons_of_mem p hq)
      rw [safe_sum_cons, ih hl]
      cases hv : p.2 with
      | vInt n =>
          have hn : 0 ≤ n ∧ n ≤ 10 := by
            rw [hv] at hp
            simpa [allowedScore] using hp
          have hna : isNAv (.vInt n) = false := isNAv_vInt_false n hn.1 hn.2
          simp only [sum_contrib, hv, hna, Bool.false_eq_true, if_false, parseScore,
            List.filter_cons, Bool.not_false, if_true, List.map_cons,
            List.sum_cons, List.length_cons, pairAdd, int_of, Prod.mk.injEq]
          constructor
          · ring_nf
          · push_cast
            ring
      | vStr s =>
          have hs : s = "N/A" := by
            rw [hv] at hp
            simpa [allowedScore] using hp
          have hna : isNAv (.vStr s) = true := by
            rw [hs]; decide
          simp [sum_contrib, hv, hna, List.filter_cons, pairAdd]

theorem safe_sum_bounds (scores : List (String × Val))
    (hall : ∀ p ∈ scores, allowedScore p.2 = true) :
    0 ≤ (safe_sum_scores_from_dict scores).1 ∧
    (safe_sum_scores_from_dict scores).1 ≤ (safe_sum_scores_from_dict scores).2 := by
  induction scores with
  | nil => simp [safe_sum_scores_from_dict]
  | cons p l ih =>
      have hp : allowedScore p.2 = true := hall p (List.mem_cons_self p l)
      have hl : ∀ q ∈ l, allowedScore q.2 = true :=
        fun q hq => hall q (List.mem_cons_of_mem p hq)
      obtain ⟨ihLo, ihHi⟩ := ih hl
      rw [safe_sum_cons]
      cases hv : p.2 with
      | vInt n =>
          have hn : 0 ≤ n ∧ n ≤ 10 := by
            rw [hv] at hp
            simpa [allowedScore] using hp
          have hna : isNAv (.vInt n) = false := isNAv_vInt_false n hn.1 hn.2
          simp only [sum_contrib, hv, hna, Bool.false_eq_true, if_false,
            parseScore, pairAdd]
          constructor
          · linarith [hn.1]
          · linarith [hn.1, hn.2]
      | vStr s =>
          have hs : s = "N/A" := by
            rw [hv] at hp
            simpa [allowedScore] using hp
          have hna : isNAv (.vStr s) = true := by
            rw [hs]; decide
          simp only [sum_contrib, hv, hna, if_true, pairAdd]
          constructor
          · linarith
          · linarith

/-- C10: on a score map whose values all lie in `SCORE_OPTIONS_FULL`
(integers 0–10 or `"N/A"`), `safe_sum_scores_from_dict` returns the sum of
the non-N/A entries as the total, 10 times their count as the max, and the
total is bounded by `0 ≤ total ≤ max`. -/
theorem C10_safe_sum_on_score_options (scores : List (String × Val))
    (hall : ∀ p ∈ scores, allowedScore p.2 = true) :
    safe_sum_scores_from_dict scores =
      (((scores.filter (fun p => !(isNAv p.2))).map (fun p => int_of p.2)).sum,
       10 * ((scores.filter (fun p => !(isNAv p.2))).length : Int)) ∧
    0 ≤ (safe_sum_scores_from_dict scores).1 ∧
    (safe_sum_scores_from_dict scores).1 ≤ (safe_sum_scores_from_dict scores).2 :=
  ⟨safe_sum_closed_form scores hall, (safe_sum_bounds scores hall).1,
   (safe_sum_bounds scores hall).2⟩

/-- The N/A interlock of `render_assessment_in_form` for a later-stage form
(`is_self_eval=False` with a record): when the item's `-自評` cell reads
`"N/A"` the selectbox options collapse to `["N/A"]` and the returned score is
the string `"N/A"`; otherwise the user's choice is returned. -/
def forced_score (record : Record) (item : String) (choice : Val) : Val :=
  if isNAv (rget record (item ++ "-自評") (.vInt 0)) then .vStr "N/A" else choice

/-- The per-item score dict a later-stage `render_assessment_in_form` returns,
given the reviewed record and the user's raw selections. -/
def render_scores (record : Record) (choices : String → Val) : List (String × Val) :=
  item_names.map (fun i => (i, forced_score record i (choices i)))

/-- A stored record whose `跟診技能` item was self-assessed `"N/A"`. -/
def recSelfNA : Record :=
  [("姓名", .vStr "Alice"), ("跟診技能-自評", .vStr "N/A"), ("櫃台技能-自評", .vInt 5)]

/-- C1 counterexample: `safe_sum_scores_from_dict`, which computes the stage
total persisted by every later-stage submission, never consults the self
stage: given a raw score of 7 for the `跟診技能` item of a record whose
`跟診技能-自評` cell is `"N/A"`, it counts 7 toward the total and 10 toward
the max instead of treating the item as not applicable (0 and 0). -/
theorem C1_counterexample_aggregator_ignores_reference :
    isNAv (rget recSelfNA "跟診技能-自評" (.vInt 0)) = true ∧
    safe_sum_scores_from_dict [("跟診技能", Val.vInt 7)] = (7, 10) := by
  constructor
  · decide
  · decide

theorem render_scores_drop_na (record : Record) (choices : String → Val) :
    ∀ items : List String,
      safe_sum_scores_from_dict (items.map (fun i => (i, forced_score record i (choices i)))) =
        safe_sum_scores_from_dict
          ((items.filter (fun i => !(isNAv (rget record (i ++ "-自評") (.vInt 0))))).map
            (fun i => (i, choices i))) := by
  intro items
  induction items with
  | nil => rfl
  | cons i rest ih =>
      by_cases h : isNAv (rget record (i ++ "-自評") (.vInt 0))
      · have hforced : forced_score record i (choices i) = .vStr "N/A" := by
          simp [forced_score, h]
        simp only [List.map_cons, safe_sum_cons, hforced, List.filter_cons, h,
          Bool.not_true, Bool.false_eq_true, if_false, ih]
        simp [sum_contrib, isNAv, valToString, pairAdd]
      · have hforced : forced_score record i (choices i) = choices i := by
          simp [forced_score, h]
        simp only [List.map_cons, safe_sum_cons, hforced, List.filter_cons, h,
          Bool.not_false, if_true, ih]

/-- C1 amended: the aggregator alone does not enforce the self-reference N/A
propagation (see the counterexample); it is the UI interlock in
`render_assessment_in_form` that forces a later stage's score cell to
`"N/A"` whenever the self cell is `"N/A"`.  For any score dict produced
through that interlock, every self-N/A item contributes 0 to both the
persisted total and the max: the aggregate equals the aggregate over the
applicable (non-self-N/A) items alone. -/
theorem C1_na_propagation_via_ui_interlock (record : Record) (choices : String → Val) :
    safe_sum_scores_from_dict (render_scores record choices) =
      safe_sum_scores_from_dict
        ((item_names.filter (fun i => !(isNAv (rget record (i ++ "-自評") (.vInt 0))))).map
          (fun i => (i, choices i))) :=
  render_scores_drop_na record choices item_names

/-- C10 witness: a concrete dict with values in the score domain, evaluated. -/
theorem C10_safe_sum_on_score_options_witness :
    (∀ p ∈ [("跟診技能", Val.vInt 7), ("櫃台技能", Val.vStr "N/A"), ("跟診執行", Val.vInt 10)],
      allowedScore p.2 = true) ∧
    safe_sum_scores_from_dict
      [("跟診技能", Val.vInt 7), ("櫃台技能", Val.vStr "N/A"), ("跟診執行", Val.vInt 10)] =
      (17, 20) :=
  ⟨by decide,
   (C10_safe_sum_on_score_options
      [("跟診技能", Val.vInt 7), ("櫃台技能", Val.vStr "N/A"), ("跟診執行", Val.vInt 10)]
      (by decide)).1.trans (by decide)⟩

/-- Outcome of one of the retry-wrapped write helpers: a successful result,
a surfaced error (`st.error` shown to the user), or a silent return with
neither result nor error. -/
inductive WriteOutcome (α : Type) where
  | ok : α → WriteOutcome α
  | errorShown : WriteOutcome α
  | silent : WriteOutcome α
deriving DecidableEq, Repr

/-- Embedding of `safe_read_data`: up to 3 attempts at
`worksheet.get_all_records()`; attempt `i` raises when `fails i` and yields
the snapshot `results i` otherwise; after the third failure the code calls
`st.error` and `st.stop` (no value is returned), modelled as `none`. -/
def safe_read_data (fails : Nat → Bool) (results : Nat → List Record) :
    Option (List Record) :=
  if fails 0 = false then some (results 0)
  else if fails 1 = false then some (results 1)
  else if fails 2 = false then some (results 2)
  else none

/-- Embedding of `safe_batch_update`: up to 3 attempts at
`worksheet.batch_update(updates)`, whose successful effect on the sheet state
is `applied`; after the third failure the code calls `st.error` and returns
`False`, surfacing the failure. -/
def safe_batch_update {α : Type} (fails : Nat → Bool) (applied : α) : WriteOutcome α :=
  if fails 0 = false then .ok applied
  else if fails 1 = false then .ok applied
  else if fails 2 = false then .ok applied
  else .errorShown

/-- C5: a read that fails on its first two attempts and succeeds on the third
returns the successful third snapshot; `safe_read_data` does not stop with the
store-unavailable error. -/
theorem C5_read_succeeds_on_third_attempt (fails : Nat → Bool)
    (results : Nat → List Record)
    (h0 : fails 0 = true) (h1 : fails 1 = true) (h2 : fails 2 = false) :
    safe_read_data fails results = some (results 2) := by
  simp [safe_read_data, h0, h1, h2]

/-- C5 witness: a schedule failing exactly the first two attempts. -/
theorem C5_read_succeeds_on_third_attempt_witness :
    (fun n => decide (n < 2)) 0 = true ∧ (fun n => decide (n < 2)) 1 = true ∧
    (fun n => decide (n < 2)) 2 = false ∧
    safe_read_data (fun n => decide (n < 2)) (fun _ => [recSelfNA]) = some [recSelfNA] :=
  ⟨by decide, by decide, by decide,
   C5_read_succeeds_on_third_attempt (fun n => decide (n < 2)) (fun _ => [recSelfNA])
     (by decide) (by decide) (by decide)⟩

/-- The worksheet grid: the header row and the data rows below it. -/
structure Sheet where
  header : List String
  rows : List (List Val)
deriving DecidableEq, Repr

/-- The dict keys absent from the (trimmed) header list: the columns
`save_data_using_headers` appends (`k not in existing_headers`). -/
def new_cols (existing keys : List String) : List String :=
  keys.filter (fun k => !(existing.contains k))

/-- The `existing_headers` list after the empty-header seeding: the trimmed
header row, or the dict's keys when the header row was empty. -/
def attemptExisting (raw keys : List String) : List String :=
  if (raw.map pyStrip).isEmpty then keys else raw.map pyStrip

/-- The raw header row after the empty-header seeding (`append_row` of the
keys when the sheet had no header yet). -/
def attemptHeaderBase (raw keys : List String) : List String :=
  if (raw.map pyStrip).isEmpty then keys else raw

/-- One successful pass of the body of `save_data_using_headers`: read the
header row, trim it; if it is empty seed it with the dict's keys
(`append_row(existing_headers)`); append as new columns every dict key not
found among the trimmed headers (`add_cols` + `update_cell` on row 1 at
positions right of the current header); finally append one data row laid out
by the extended header, missing fields defaulting to `""`. -/
def attemptSave (ws : Sheet) (data_dict : List (String × Val)) : Sheet :=
  { header := attemptHeaderBase ws.header (data_dict.map Prod.fst) ++
      new_cols (attemptExisting ws.header (data_dict.map Prod.fst))
        (data_dict.map Prod.fst),
    rows := ws.rows ++
      [(attemptExisting ws.header (data_dict.map Prod.fst) ++
          new_cols (attemptExisting ws.header (data_dict.map Prod.fst))
            (data_dict.map Prod.fst)).map
        (fun h => rget data_dict h (.vStr ""))] }

/-- Embedding of `save_data_using_headers`: up to 3 attempts of the body;
attempt `i` raises when `fails i`.  On success the function returns (the
sheet now being `attemptSave ws d`); after the third failure the `for` loop
simply ends — there is no `st.error` and no return value, so the caller sees
a silent normal return. -/
def save_data_using_headers (fails : Nat → Bool) (ws : Sheet)
    (d : List (String × Val)) : WriteOutcome Sheet :=
  if fails 0 = false then .ok (attemptSave ws d)
  else if fails 1 = false then .ok (attemptSave ws d)
  else if fails 2 = false then .ok (attemptSave ws d)
  else .silent

/-- C6 counterexample: when every attempt fails, `save_data_using_headers`
(the `appendRow`/`ensureColumns` wrapper) returns silently as if it had
succeeded — it does not surface a terminal store-unavailable error the way
`safe_batch_update` does. -/
theorem C6_counterexample_append_row_swallows_failure :
    save_data_using_headers (fun _ => true) ⟨["姓名"], []⟩ [("姓名", Val.vStr "A")] =
      WriteOutcome.silent ∧
    (WriteOutcome.silent ≠ (WriteOutcome.errorShown : WriteOutcome Sheet)) := by
  constructor
  · rfl
  · decide

/-- C6 amended: after all three attempts fail, `safe_read_data` (loadAll)
stops with an error and `safe_batch_update` (updateCells) shows a terminal
error, but `save_data_using_headers` (appendRow/ensureColumns) returns
silently with no error surfaced. -/
theorem C6_terminal_failure_surfacing (fails : Nat → Bool)
    (results : Nat → List Record) (applied : Sheet) (ws : Sheet)
    (d : List (String × Val))
    (h0 : fails 0 = true) (h1 : fails 1 = true) (h2 : fails 2 = true) :
    safe_read_data fails results = none ∧
    safe_batch_update fails applied = .errorShown ∧
    save_data_using_headers fails ws d = .silent := by
  refine ⟨?_, ?_, ?_⟩ <;> simp [safe_read_data, safe_batch_update,
    save_data_using_headers, h0, h1, h2]

/-- C6 amended witness: the always-failing schedule, evaluated concretely. -/
theorem C6_terminal_failure_surfacing_witness :
    safe_read_data (fun _ => true) (fun _ => []) = none ∧
    safe_batch_update (fun _ => true) (⟨["姓名"], []⟩ : Sheet) = .errorShown ∧
    save_data_using_headers (fun _ => true) ⟨["姓名"], []⟩ [("日期", Val.vStr "2024-01-05")] =
      .silent :=
  C6_terminal_failure_surfacing (fun _ => true) (fun _ => []) ⟨["姓名"], []⟩
    ⟨["姓名"], []⟩ [("日期", Val.vStr "2024-01-05")] rfl rfl rfl

theorem contains_eq_true_iff {l : List String} {k : String} :
    l.contains k = true ↔ k ∈ l := by
  simp [List.contains, List.elem_iff]

theorem new_cols_eq_nil {E K : List String} (h : ∀ k ∈ K, k ∈ E) :
    new_cols E K = [] := by
  rw [new_cols, List.filter_eq_nil_iff]
  intro k hk
  simp [contains_eq_true_iff, h k hk]

theorem map_pyStrip_id {l : List String} (h : ∀ k ∈ l, pyStrip k = k) :
    l.map pyStrip = l := by
  induction l with
  | nil => rfl
  | cons x xs ih =>
      simp only [List.map_cons, h x (List.mem_cons_self x xs)]
      rw [ih (fun k hk => h k (List.mem_cons_of_mem x hk))]

/-- C7 counterexample: the header diff is not idempotent for a field name with
surrounding whitespace.  Writing the dict key `"a "` into a sheet headed
`["h"]` appends the column `"a "`, but the second run trims the stored header
to `"a"`, fails to recognise the key `"a "`, and appends it again, so the
second run changes the header row. -/
theorem C7_counterexample_header_diff_not_idempotent :
    (attemptSave (attemptSave ⟨["h"], []⟩ [("a ", Val.vInt 1)]) [("a ", Val.vInt 1)]).header ≠
      (attemptSave ⟨["h"], []⟩ [("a ", Val.vInt 1)]).header := by
  decide

/-- C7 amended: for name sets whose names carry no surrounding whitespace
(`pyStrip`-invariant, which holds for every field name the app writes),
running the column-provisioning step of `save_data_using_headers` twice with
the same dict leaves the header row unchanged after the first run: the second
run appends no new columns. -/
theorem C7_header_diff_idempotent_for_trimmed_names (ws : Sheet)
    (d : List (String × Val))
    (hkeys : ∀ k ∈ d.map Prod.fst, pyStrip k = k) :
    (attemptSave (attemptSave ws d) d).header = (attemptSave ws d).header := by
  have hK : (d.map Prod.fst).map pyStrip = d.map Prod.fst := map_pyStrip_id hkeys
  show attemptHeaderBase (attemptSave ws d).header (d.map Prod.fst) ++
      new_cols (attemptExisting (attemptSave ws d).header (d.map Prod.fst))
        (d.map Prod.fst) =
    (attemptSave ws d).header
  by_cases e : (ws.header.map pyStrip).isEmpty = true
  · have hH1 : (attemptSave ws d).header = d.map Prod.fst := by
      show attemptHeaderBase ws.header (d.map Prod.fst) ++
          new_cols (attemptExisting ws.header (d.map Prod.fst)) (d.map Prod.fst) = _
      simp only [attemptHeaderBase, attemptExisting, if_pos e]
      rw [new_cols_eq_nil (fun k hk => hk), List.append_nil]
    rw [hH1]
    simp only [attemptHeaderBase, attemptExisting, hK, ite_self]
    rw [new_cols_eq_nil (fun k hk => hk), List.append_nil]
  · have hH1 : (attemptSave ws d).header =
        ws.header ++ new_cols (ws.header.map pyStrip) (d.map Prod.fst) := by
      show attemptHeaderBase ws.header (d.map Prod.fst) ++
          new_cols (attemptExisting ws.header (d.map Prod.fst)) (d.map Prod.fst) = _
      simp only [attemptHeaderBase, attemptExisting, if_neg e]
    have hNfix : (new_cols (ws.header.map pyStrip) (d.map Prod.fst)).map pyStrip =
        new_cols (ws.header.map pyStrip) (d.map Prod.fst) := by
      apply map_pyStrip_id
      intro k hk
      simp only [new_cols] at hk
      exact hkeys k (List.mem_of_mem_filter hk)
    have hH1strip : (attemptSave ws d).header.map pyStrip =
        ws.header.map pyStrip ++ new_cols (ws.header.map pyStrip) (d.map Prod.fst) := by
      rw [hH1, List.map_append, hNfix]
    have hne2 : ¬(((attemptSave ws d).header.map pyStrip).isEmpty = true) := by
      rw [hH1strip]
      intro habs
      rw [List.isEmpty_iff] at habs
      have h0 := (List.append_eq_nil.mp habs).1
      exact e (by rw [h0]; rfl)
    have hcover : ∀ k ∈ d.map Prod.fst, k ∈ (attemptSave ws d).header.map pyStrip := by
      intro k hk
      rw [hH1strip, List.mem_append]
      by_cases hc : (ws.header.map pyStrip).contains k = true
      · exact Or.inl (contains_eq_true_iff.mp hc)
      · have hcf : (ws.header.map pyStrip).contains k = false := by
          cases hcb : (ws.header.map pyStrip).contains k
          · rfl
          · exact absurd hcb hc
        refine Or.inr ?_
        simp only [new_cols]
        refine List.mem_filter.mpr ⟨hk, ?_⟩
        rw [hcf]
        rfl
    simp only [attemptHeaderBase, attemptExisting, if_neg hne2]
    rw [new_cols_eq_nil hcover, List.append_nil]

/-- C7 witness: a dict of trimmed field names, run twice against a headed
sheet, applied to the idempotence theorem. -/
theorem C7_header_diff_idempotent_witness :
    (∀ k ∈ ([("日期", Val.vStr "2024-01-05")] : List (String × Val)).map Prod.fst,
      pyStrip k = k) ∧
    (attemptSave (attemptSave ⟨["姓名"], []⟩ [("日期", Val.vStr "2024-01-05")])
        [("日期", Val.vStr "2024-01-05")]).header =
      (attemptSave ⟨["姓名"], []⟩ [("日期", Val.vStr "2024-01-05")]).header :=
  ⟨by decide,
   C7_header_diff_idempotent_for_trimmed_names ⟨["姓名"], []⟩
     [("日期", Val.vStr "2024-01-05")] (by decide)⟩

/-- Split a character list at `-` or `/` separators. -/
def splitSep : List Char → List (List Char)
  | [] => [[]]
  | c :: rest =>
      if c = '-' ∨ c = '/' then [] :: splitSep rest
      else
        match splitSep rest with
        | g :: gs => (c :: g) :: gs
        | [] => [[c]]

/-- Zero-pad a month or day number to two digits (`strftime`, `%m`/`%d`). -/
def natPad2 (n : Nat) : String := if n < 10 then "0" ++ toString n else toString n

/-- Model of `pd.to_datetime(str(...))` restricted to the year-first numeric
forms this app stores and queries (`YYYY-M-D` with `-` or `/` separators and
in-range month and day): the (year, month, day) triple, or `none` when the
string is not of this shape — the source's `except` branch. -/
def parsePdDate (s : String) : Option (Nat × Nat × Nat) :=
  match splitSep (pyStrip s).data with
  | [y, m, d] =>
      if y.length = 4 && !m.isEmpty && !d.isEmpty &&
          y.all Char.isDigit && m.all Char.isDigit && d.all Char.isDigit &&
          decide (1 ≤ digitsToNat m) && decide (digitsToNat m ≤ 12) &&
          decide (1 ≤ digitsToNat d) && decide (digitsToNat d ≤ 31) then
        some (digitsToNat y, digitsToNat m, digitsToNat d)
      else none
  | _ => none

/-- Embedding of `normalize_date`: render the parsed date as the canonical
`YYYY-MM-DD` string (`strftime` with a zero-padded month and day), falling
back to the stripped input when parsing raises. -/
def normalize_date (date_str : String) : String :=
  match parsePdDate date_str with
  | some (y, m, d) => toString y ++ "-" ++ natPad2 m ++ "-" ++ natPad2 d
  | none => pyStrip date_str

/-- One row's normalized natural-key comparison inside `find_row_index`:
`clean_name == target_name and normalized_date == target_date`, where the
targets are already normalized. -/
def rowKeyMatch (r : Record) (target_name target_date : String) : Bool :=
  pyStrip (valToString (rget r "姓名" (.vStr ""))) == target_name &&
  normalize_date (valToString (rget r "日期" (.vStr ""))) == target_date

/-- Position (counted from `start`) of the first row matching the normalized
key: the `match[0]` of the pandas index query. -/
def firstMatchIdx : List Record → String → String → Nat → Option Nat
  | [], _, _, _ => none
  | r :: rs, n, d, i =>
      if rowKeyMatch r n d then some i else firstMatchIdx rs n d (i + 1)

/-- Embedding of `find_row_index`: `None` on an empty snapshot, otherwise the
first row (by position) whose stripped name and normalized date equal the
normalized query, returned as the 1-based sheet row `match[0] + 2`. -/
def find_row_index (all_values : List Record) (name assess_date : String) :
    Option Nat :=
  if all_values.isEmpty then none
  else
    match firstMatchIdx all_values (pyStrip name) (normalize_date assess_date) 0 with
    | some j => some (j + 2)
    | none => none

theorem firstMatchIdx_spec :
    ∀ (l : List Record) (n d : String) (k m : Nat),
      firstMatchIdx l n d k = some m →
      k ≤ m ∧ ∃ h : m - k < l.length,
        rowKeyMatch (l.get ⟨m - k, h⟩) n d = true ∧
        ∀ j (hj : j < l.length), j < m - k → rowKeyMatch (l.get ⟨j, hj⟩) n d = false := by
  intro l
  induction l with
  | nil => intro n d k m h; simp [firstMatchIdx] at h
  | cons r rs ih =>
      intro n d k m h
      rw [firstMatchIdx] at h
      by_cases hr : rowKeyMatch r n d = true
      · rw [if_pos hr] at h
        have hm : m = k := by
          injection h with h
          omega
        subst hm
        refine ⟨Nat.le_refl m, ?_⟩
        have hz : m - m = 0 := by omega
        refine ⟨by simp [hz], ?_, ?_⟩
        · simp only [hz]
          exact hr
        · intro j hj hjm
          omega
      · rw [if_neg hr] at h
        obtain ⟨hk1, hlt, hmatch, hbefore⟩ := ih n d (k + 1) m h
        have hk : k ≤ m := by omega
        have hsub : m - k = (m - (k + 1)) + 1 := by omega
        refine ⟨hk, ?_⟩
        refine ⟨by simp [hsub]; omega, ?_, ?_⟩
        · simp only [hsub]
          exact hmatch
        · intro j hj hjm
          cases j with
          | zero =>
              simp only [List.get]
              cases hrb : rowKeyMatch r n d
              · rfl
              · exact absurd hrb hr
          | succ j' =>
              simp only [List.get]
              refine hbefore j' (by simpa using hj) (by omega)

theorem firstMatchIdx_isSome :
    ∀ (l : List Record) (n d : String) (k : Nat) (j : Nat) (hj : j < l.length),
      rowKeyMatch (l.get ⟨j, hj⟩) n d = true →
      ∃ m, firstMatchIdx l n d k = some m := by
  intro l
  induction l with
  | nil => intro n d k j hj; simp at hj
  | cons r rs ih =>
      intro n d k j hj hmatch
      rw [firstMatchIdx]
      by_cases hr : rowKeyMatch r n d = true
      · exact ⟨k, by rw [if_pos hr]⟩
      · rw [if_neg hr]
        cases j with
        | zero => exact absurd hmatch hr
        | succ j' => exact ih n d (k + 1) j' (by simpa using hj) hmatch

/-- C8: lookup normalizes both sides before comparing.  Any stored row whose
stripped name and normalized date agree with the stripped/normalized query is
found by `find_row_index` (at sheet row 2 for a one-row snapshot). -/
theorem C8_locate_normalizes_both_sides (r : Record) (name date : String)
    (hname : pyStrip (valToString (rget r "姓名" (.vStr ""))) = pyStrip name)
    (hdate : normalize_date (valToString (rget r "日期" (.vStr ""))) = normalize_date date) :
    find_row_index [r] name date = some 2 := by
  simp [find_row_index, firstMatchIdx, rowKeyMatch, hname, hdate]

/-- C8 witness: the spec's example — the stored row is keyed
(`"Alice"`, `"2024-01-05"`) and the query is (`"Alice "`, `"2024/01/05"`). -/
theorem C8_locate_normalizes_both_sides_witness :
    pyStrip (valToString (rget [("姓名", Val.vStr "Alice"), ("日期", Val.vStr "2024-01-05")]
        "姓名" (.vStr ""))) = pyStrip "Alice " ∧
    normalize_date (valToString (rget [("姓名", Val.vStr "Alice"), ("日期", Val.vStr "2024-01-05")]
        "日期" (.vStr ""))) = normalize_date "2024/01/05" ∧
    find_row_index [[("姓名", Val.vStr "Alice"), ("日期", Val.vStr "2024-01-05")]]
        "Alice " "2024/01/05" = some 2 :=
  ⟨by decide, by decide,
   C8_locate_normalizes_both_sides [("姓名", Val.vStr "Alice"), ("日期", Val.vStr "2024-01-05")]
     "Alice " "2024/01/05" (by decide) (by decide)⟩

/-- A stored row keyed (`"Alice"`, `"2024-01-05"`). -/
def rowDupA : Record := [("姓名", .vStr "Alice"), ("日期", .vStr "2024-01-05")]

/-- A second stored row with the same normalized key, written with stray
whitespace and the slash date serialization. -/
def rowDupB : Record := [("姓名", .vStr "Alice "), ("日期", .vStr "2024/01/05")]

/-- A snapshot holding two rows that collide on the normalized natural key. -/
def dupSnapshot : List Record := [rowDupA, rowDupB]

/-- C3 counterexample: with two rows sharing the normalized natural key
(`"Alice"`, `"2024-01-05"`), `find_row_index` does not fail: it silently
returns the first matching row's handle (`some 2`) instead of surfacing the
ambiguity. -/
theorem C3_counterexample_ambiguity_not_surfaced :
    rowKeyMatch rowDupA "Alice" "2024-01-05" = true ∧
    rowKeyMatch rowDupB "Alice" "2024-01-05" = true ∧
    find_row_index dupSnapshot "Alice" "2024-01-05" = some 2 := by
  refine ⟨by decide, by decide, by decide⟩

/-- C3 amended: when at least two distinct rows match the normalized
(name, date) key, `find_row_index` still succeeds and returns the handle
`m + 2` of the positionally first matching row `m` (every earlier row does
not match); ambiguity is never surfaced. -/
theorem C3_multiple_matches_return_first (data : List Record) (name date : String)
    (j k : Fin data.length) (_hjk : j ≠ k)
    (hj : rowKeyMatch (data.get j) (pyStrip name) (normalize_date date) = true)
    (_hk : rowKeyMatch (data.get k) (pyStrip name) (normalize_date date) = true) :
    ∃ m, ∃ hm : m < data.length,
      rowKeyMatch (data.get ⟨m, hm⟩) (pyStrip name) (normalize_date date) = true ∧
      (∀ j' (hj' : j' < data.length), j' < m →
        rowKeyMatch (data.get ⟨j', hj'⟩) (pyStrip name) (normalize_date date) = false) ∧
      find_row_index data name date = some (m + 2) := by
  have hlen : 0 < data.length := Nat.lt_of_le_of_lt (Nat.zero_le _) j.isLt
  obtain ⟨m0, hfm⟩ :=
    firstMatchIdx_isSome data (pyStrip name) (normalize_date date) 0 j.1 j.2 hj
  obtain ⟨-, hlt, hmatch, hbefore⟩ :=
    firstMatchIdx_spec data (pyStrip name) (normalize_date date) 0 m0 hfm
  simp only [Nat.sub_zero] at hlt hmatch hbefore
  have hne : data.isEmpty = false := by
    rw [List.isEmpty_eq_false]
    exact List.ne_nil_of_length_pos hlen
  refine ⟨m0, hlt, hmatch, ?_, ?_⟩
  · intro j' hj' hjm
    exact hbefore j' hj' hjm
  · simp [find_row_index, hne, hfm]

/-- C3 amended witness: the colliding two-row snapshot, applied to the
first-match theorem. -/
theorem C3_multiple_matches_return_first_witness :
    ∃ m, ∃ hm : m < dupSnapshot.length,
      rowKeyMatch (dupSnapshot.get ⟨m, hm⟩) (pyStrip "Alice") (normalize_date "2024-01-05") = true ∧
      (∀ j' (hj' : j' < dupSnapshot.length), j' < m →
        rowKeyMatch (dupSnapshot.get ⟨j', hj'⟩) (pyStrip "Alice")
          (normalize_date "2024-01-05") = false) ∧
      find_row_index dupSnapshot "Alice" "2024-01-05" = some (m + 2) :=
  C3_multiple_matches_return_first dupSnapshot "Alice" "2024-01-05"
    ⟨0, by decide⟩ ⟨1, by decide⟩ (by decide) (by decide) (by decide)

/-- The parameters distinguishing the four review-stage submission handlers in
`main`: the pending status their queue filters on, the status value their
batched update writes, the optional `初考組別` routing filter, and the columns
whose absence makes `clean_headers.index(...)` raise `ValueError` before any
write is issued. -/
structure StageSpec where
  expected : String
  next : String
  group : Option String
  required : List String
deriving DecidableEq, Repr

/-- Tab 2, 初考 (跟診): queue `待初考` ∧ `跟診`, writes `待覆考`. -/
def clinicalStage : StageSpec := ⟨"待初考", "待覆考", some "跟診", ["初考總分", "初考評語"]⟩

/-- Tab 3, 初考 (櫃檯): queue `待初考` ∧ `櫃檯`, writes `待覆考`. -/
def frontStage : StageSpec := ⟨"待初考", "待覆考", some "櫃檯", ["初考總分", "初考評語"]⟩

/-- Tab 4, 覆考 (護理長): queue `待覆考`, writes `待核決`. -/
def secondaryStage : StageSpec := ⟨"待覆考", "待核決", none, ["覆考總分", "覆考評語"]⟩

/-- Tab 5, 老闆核決: queue `待核決`, writes `已完成`. -/
def bossStage : StageSpec := ⟨"待核決", "已完成", none, ["最終總分", "最終建議"]⟩

/-- The four review-stage submission handlers of `main`. -/
def stageTable : List StageSpec := [clinicalStage, frontStage, secondaryStage, bossStage]

/-- A record's `目前狀態` cell. -/
def statusOf (r : Record) : Val := rget r "目前狀態" (.vStr "")

/-- The `初考組別` routing filter applied by the two initial-review tabs. -/
def groupOk (r : Record) : Option String → Bool
  | none => true
  | some g => decide (rget r "初考組別" (.vStr "") = Val.vStr g)

/-- The exact (unnormalized) match used to pull the selected target out of the
pending dataframe: `(pending_df["姓名"] == target_name) & (pending_df["日期"]
== target_date)`. -/
def exactTargetMatch (r : Record) (name date : String) : Bool :=
  decide (rget r "姓名" (.vStr "") = Val.vStr name) &&
  decide (rget r "日期" (.vStr "") = Val.vStr date)

/-- Column presence in the loaded dataframe (`"..." in df_all.columns`). -/
def hasColumn (data : List Record) (c : String) : Bool :=
  data.any (fun r => (r.map Prod.fst).contains c)

/-- The status write issued by one review-stage submission against snapshot
`data` for the selected target `(name, date)`: `some (i, st)` means the
batched update writes status `st` to the record at 0-based snapshot position
`i` (sheet row `i + 2`); `none` means no write is issued.  Mirrors `main`:
the queue exists only when the status (and, for initial review, group)
columns exist; the target must be pulled from the queue by exact match; the
written row comes from `find_row_index` over the whole snapshot; the
`clean_headers.index` lookups of the always-written columns must succeed,
else the `ValueError` handler aborts before `safe_batch_update`. -/
def submitReview (sp : StageSpec) (data : List Record) (name date : String) :
    Option (Nat × String) :=
  match data with
  | [] => none
  | r0 :: rest =>
      if !hasColumn (r0 :: rest) "目前狀態" then none
      else if sp.group.isSome && !hasColumn (r0 :: rest) "初考組別" then none
      else if !((r0 :: rest).filter
          (fun r => decide (statusOf r = .vStr sp.expected) && groupOk r sp.group)).any
          (fun r => exactTargetMatch r name date) then none
      else
        match find_row_index (r0 :: rest) name date with
        | none => none
        | some idx =>
            if ("目前狀態" :: sp.required).all
                (fun c => (r0.map (fun p => pyStrip p.1)).contains c)
            then some (idx - 2, sp.next)
            else none

/-- The status a fresh self-assessment records, decided by the submitter's
role (`main`, the `next_status` assignment in Tab 1). -/
def initial_status (role : String) : String :=
  if role == "一般員工" then "待初考"
  else if role == "主管" then "待覆考"
  else "待核決"

/-- Position of each status in the one-directional chain
`待初考 → 待覆考 → 待核決 → 已完成`. -/
def statusRank : String → Nat
  | "待初考" => 1
  | "待覆考" => 2
  | "待核決" => 3
  | "已完成" => 4
  | _ => 0

theorem stage_rank_step {sp : StageSpec} (hsp : sp ∈ stageTable) :
    statusRank sp.next = statusRank sp.expected + 1 := by
  rcases (by simpa [stageTable] using hsp : sp = clinicalStage ∨ sp = frontStage ∨
      sp = secondaryStage ∨ sp = bossStage) with h | h | h | h <;> subst h <;> decide

theorem exact_implies_rowKeyMatch {r : Record} {name date : String}
    (h : exactTargetMatch r name date = true) :
    rowKeyMatch r (pyStrip name) (normalize_date date) = true := by
  rw [exactTargetMatch, Bool.and_eq_true] at h
  have e1 : rget r "姓名" (.vStr "") = .vStr name := of_decide_eq_true h.1
  have e2 : rget r "日期" (.vStr "") = .vStr date := of_decide_eq_true h.2
  rw [rowKeyMatch, e1, e2]
  simp [valToString]

/-- A stale duplicate of the Alice case, already `已完成`, stored with stray
whitespace in the name and the slash date serialization. -/
def rowStale : Record :=
  [("姓名", .vStr "Alice "), ("日期", .vStr "2024/01/05"),
   ("目前狀態", .vStr "已完成"), ("覆考總分", .vInt 0), ("覆考評語", .vStr "")]

/-- The pending Alice case awaiting secondary review. -/
def rowFresh : Record :=
  [("姓名", .vStr "Alice"), ("日期", .vStr "2024-01-05"),
   ("目前狀態", .vStr "待覆考"), ("覆考總分", .vInt 0), ("覆考評語", .vStr "")]

/-- C9 counterexample: with two rows colliding on the normalized natural key,
a secondary-review submission selected for the pending row is written to the
first normalized match — here the `已完成` duplicate — so the batched update
writes the earlier status `待核決` over the later status `已完成`: the status
chain is not forward-only on the stored rows. -/
theorem C9_counterexample_duplicate_key_reverts_status :
    statusOf rowStale = Val.vStr "已完成" ∧
    statusOf rowFresh = Val.vStr "待覆考" ∧
    submitReview secondaryStage [rowStale, rowFresh] "Alice" "2024-01-05" =
      some (0, "待核決") ∧
    statusRank "待核決" < statusRank "已完成" := by
  refine ⟨by decide, by decide, by decide, by decide⟩

/-- C9 amended: a new case's initial status is determined by the submitter's
role exactly as the transition table says, and — provided the normalized
natural key of the selected target matches a unique snapshot row — every
review-stage status write targets a row currently holding the stage's
expected pending status and writes exactly the next status in the chain
(rank + 1), so statuses only move forward.  (With duplicate normalized keys
the write can target a different row and revert it, see the
counterexample.) -/
theorem C9_status_machine_forward_under_unique_key :
    (initial_status "一般員工" = "待初考" ∧ initial_status "主管" = "待覆考" ∧
     initial_status "護理長" = "待核決") ∧
    ∀ sp ∈ stageTable, ∀ (data : List Record) (name date : String) (i : Nat) (st : String),
      (∀ (j k : Fin data.length),
        rowKeyMatch (data.get j) (pyStrip name) (normalize_date date) = true →
        rowKeyMatch (data.get k) (pyStrip name) (normalize_date date) = true → j = k) →
      submitReview sp data name date = some (i, st) →
      st = sp.next ∧ statusRank st = statusRank sp.expected + 1 ∧
      ∃ h : i < data.length, statusOf (data.get ⟨i, h⟩) = .vStr sp.expected := by
  refine ⟨⟨rfl, rfl, rfl⟩, ?_⟩
  intro sp hsp data name date i st huniq heq
  cases data with
  | nil => simp [submitReview] at heq
  | cons r0 rest =>
      simp only [submitReview] at heq
      split at heq
      · exact absurd heq (by simp)
      split at heq
      · exact absurd heq (by simp)
      split at heq
      · exact absurd heq (by simp)
      next hany =>
        split at heq
        next hfindnone => exact absurd heq (by simp)
        next idx hfind =>
          split at heq
          next hall =>
            have hpair : (idx - 2, sp.next) = (i, st) := by
              injection heq
            rw [Prod.mk.injEq] at hpair
            obtain ⟨hi, hst⟩ := hpair
            have hany2 : ((r0 :: rest).filter
                (fun r => decide (statusOf r = .vStr sp.expected) && groupOk r sp.group)).any
                (fun r => exactTargetMatch r name date) = true := by
              cases hb : ((r0 :: rest).filter
                  (fun r => decide (statusOf r = .vStr sp.expected) && groupOk r sp.group)).any
                  (fun r => exactTargetMatch r name date)
              · rw [hb] at hany
                exact absurd rfl hany
              · rfl
            obtain ⟨r, hrfil, hrex⟩ := List.any_eq_true.mp hany2
            have hmem : r ∈ r0 :: rest := List.mem_of_mem_filter hrfil
            have hpred := (List.mem_filter.mp hrfil).2
            rw [Bool.and_eq_true] at hpred
            have hstat : statusOf r = Val.vStr sp.expected := of_decide_eq_true hpred.1
            have hrkm : rowKeyMatch r (pyStrip name) (normalize_date date) = true :=
              exact_implies_rowKeyMatch hrex
            obtain ⟨nr, hnr⟩ := List.mem_iff_get.mp hmem
            simp only [find_row_index, List.isEmpty_cons, Bool.false_eq_true,
              if_false] at hfind
            split at hfind
            next j hfm =>
              have hidx : idx = j + 2 := by
                injection hfind with hh
                omega
              obtain ⟨-, hjlt, hjmatch, -⟩ :=
                firstMatchIdx_spec (r0 :: rest) (pyStrip name) (normalize_date date) 0 j hfm
              simp only [Nat.sub_zero] at hjlt hjmatch
              have hfin : (⟨j, hjlt⟩ : Fin (r0 :: rest).length) = nr :=
                huniq ⟨j, hjlt⟩ nr hjmatch (by rw [hnr]; exact hrkm)
              have hgetj : (r0 :: rest).get ⟨j, hjlt⟩ = r := by
                rw [hfin, hnr]
              have hij : i = j := by omega
              subst hij
              refine ⟨hst.symm, ?_, ⟨hjlt, ?_⟩⟩
              · rw [← hst]
                exact stage_rank_step hsp
              · rw [hgetj]
                exact hstat
            next => exact absurd hfind (by simp)
          next => exact absurd heq (by simp)

/-- C9 amended witness: a unique-key snapshot with one pending `待覆考` case,
applied to the forward-step theorem. -/
theorem C9_status_machine_forward_witness :
    "待核決" = secondaryStage.next ∧
    statusRank "待核決" = statusRank secondaryStage.expected + 1 ∧
    ∃ h : 0 < ([rowFresh] : List Record).length,
      statusOf (([rowFresh] : List Record).get ⟨0, h⟩) = .vStr secondaryStage.expected :=
  C9_status_machine_forward_under_unique_key.2 secondaryStage (by decide)
    [rowFresh] "Alice" "2024-01-05" 0 "待核決" (by decide) (by decide)

end DentalApp
